import Mathlib

/-!
# Shallow embedding of `src/semantic-search/search.py`

The Python module implements a `SemanticSearchEngine` with
`load_or_compute_embeddings`, `vector_search` and `search`.  We embed it
here with floating-point numbers idealised as rationals (`ℚ`); the one
place the source defends against NaN (the score-normalisation expression
in `search`) is modelled with an explicit `Fl` type that has a NaN value.

External collaborators imported by the module (`get_embedding`,
`compute_document_embeddings`, `load_embeddings`, `save_embeddings`,
`cosine_similarity` from `embeddings`, and `rerank_batch` from
`reranker`) live in files that are not part of the embedded source; they
are passed in as parameters, so every theorem quantifies over all
behaviours the collaborators may have.
-/

namespace SemanticSearch

/-- A document record as loaded from the corpus JSON file: `id`, `content`,
and optional `title` / `source` keys (the source reads the latter two with
`doc.get('title', '')` / `doc.get('source', '')`). -/
structure Document where
  id : Int
  content : String
  title : Option String
  source : Option String
deriving Repr, DecidableEq

/-- An embedding vector: a sequence of (idealised) floats. -/
abbrev Emb := List ℚ

/-- The engine's loaded state: `self.documents` and `self.embeddings`. -/
structure Engine where
  documents : List Document
  embeddings : List Emb
deriving Repr, DecidableEq

/-- A candidate dict as built inside `vector_search`:
`{'id': ..., 'score': ..., 'content': ..., 'title': ..., 'source': ...}`. -/
structure Candidate where
  id : Int
  score : ℚ
  content : String
  title : String
  source : String
deriving Repr, DecidableEq

/-- A float value at the normalisation boundary: either NaN or a real
value (idealised as a rational).  `search`'s formatting expression is the
only place the source distinguishes NaN. -/
inductive Fl where
  | nan : Fl
  | val : ℚ → Fl
deriving Repr, DecidableEq

/-- `metadata` sub-dict of a formatted search result. -/
structure Metadata where
  title : String
  source : String
deriving Repr, DecidableEq

/-- A formatted search result:
`{'id': ..., 'score': ..., 'content': ..., 'metadata': {...}}`. -/
structure SearchResult where
  id : Int
  score : ℚ
  content : String
  metadata : Metadata
deriving Repr, DecidableEq

/-- The `metrics` dict of the response.  NOTE: the source names the first
key `'latency'` (holding milliseconds), in both the empty-query branch and
the normal branch. -/
structure Metrics where
  latency : Nat
  totalDocs : Nat
deriving Repr, DecidableEq

/-- The response dict built by `search`:
`{'results': [...], 'reranked': ..., 'metrics': {...}}`. -/
structure SearchResponse where
  results : List SearchResult
  reranked : Bool
  metrics : Metrics
deriving Repr, DecidableEq

/-! ## `load_or_compute_embeddings` (source lines 28–37)

The collaborators `load_embeddings` (returns a cached sequence or `None`)
and `compute_document_embeddings` (spec contract: one vector per document,
same order) are external; they enter as the `cached` value and the
`compute_document_embeddings` function.  `save_embeddings` only persists
and does not affect the returned value, so it has no counterpart here. -/

/-- `self.embeddings = load_embeddings(); if None: compute and save`. -/
def load_or_compute_embeddings (documents : List Document)
    (cached : Option (List Emb))
    (compute_document_embeddings : List Document → List Emb) : List Emb :=
  match cached with
  | some e => e
  | none => compute_document_embeddings documents

/-! ## `vector_search` (source lines 39–59) -/

/-- One iteration of the loop body: the candidate dict built from
`self.documents[i]` and the similarity score. -/
def mkCandidate (d : Document) (score : ℚ) : Candidate :=
  { id := d.id
    score := score
    content := d.content
    title := d.title.getD ""
    source := d.source.getD "" }

/-- The loop `for i, doc_embedding in enumerate(self.embeddings):` with
body `similarities.append({... self.documents[i] ...})`, starting at
index `i`.  Indexing `self.documents[i]` is fallible (Python raises
`IndexError` out of range), hence the `Option`. -/
def mkCandidatesAux (documents : List Document) (embeddings : List Emb)
    (sim : Emb → Emb → ℚ) (query_embedding : Emb) (i : Nat) :
    Option (List Candidate) :=
  match embeddings with
  | [] => some []
  | e :: es =>
    match documents.get? i with
    | none => none
    | some d =>
      (mkCandidatesAux documents es sim query_embedding (i + 1)).map
        (fun rest => mkCandidate d (sim query_embedding e) :: rest)

/-- The full `similarities` list before sorting (loop from index 0). -/
def mkCandidates (documents : List Document) (embeddings : List Emb)
    (sim : Emb → Emb → ℚ) (query_embedding : Emb) :
    Option (List Candidate) :=
  mkCandidatesAux documents embeddings sim query_embedding 0

/-- The sort comparator: `similarities.sort(key=lambda x: (-x['score'], x['id']))`,
i.e. lexicographic on the pair `(-score, id)`: higher scores first, ties by
ascending id. -/
def candLE (a b : Candidate) : Prop :=
  b.score < a.score ∨ (a.score = b.score ∧ a.id ≤ b.id)

instance : DecidableRel candLE := fun a b => by
  unfold candLE; infer_instance

instance : IsTotal Candidate candLE where
  total a b := by
    unfold candLE
    rcases lt_trichotomy a.score b.score with h | h | h
    · exact Or.inr (Or.inl h)
    · rcases le_total a.id b.id with h' | h'
      · exact Or.inl (Or.inr ⟨h, h'⟩)
      · exact Or.inr (Or.inr ⟨h.symm, h'⟩)
    · exact Or.inl (Or.inl h)

instance : IsTrans Candidate candLE where
  trans a b c hab hbc := by
    unfold candLE at *
    rcases hab with hab | ⟨hab, hab'⟩ <;> rcases hbc with hbc | ⟨hbc, hbc'⟩
    · exact Or.inl (hbc.trans hab)
    · exact Or.inl (hbc ▸ hab)
    · exact Or.inl (hab ▸ hbc)
    · exact Or.inr ⟨hab.trans hbc, hab'.trans hbc'⟩

/-- `vector_search(self, query_embedding, k)`: build the similarity list
(`cosine_similarity` is the external `sim` parameter), sort it by
`(-score, id)` and return the first `k`.  Python's `list.sort` is a
stable sort; for a total, transitive comparator a stable sort's output is
unique, so the (stable) insertion sort used here returns exactly the list
the source's sort returns. -/
def vector_search (st : Engine) (sim : Emb → Emb → ℚ)
    (query_embedding : Emb) (k : Nat) : Option (List Candidate) :=
  (mkCandidates st.documents st.embeddings sim query_embedding).map
    (fun similarities => (similarities.insertionSort candLE).take k)

/-! ## Score normalisation (source line 104)

`round(max(0.0, min(1.0, 0.0 if math.isnan(float(r.get('score', 0.0) or 0.0))
else float(r.get('score', 0.0) or 0.0))), 4)` -/

/-- `r.get('score', 0.0)`: a missing score defaults to `0.0`. -/
def scoreVal (s : Option Fl) : Fl := s.getD (Fl.val 0)

/-- `x or 0.0` on a float: `0.0` when the value is falsy (`0.0`), the value
itself otherwise; NaN is truthy.  On ideal floats this is the identity. -/
def orZero (x : Fl) : Fl :=
  match x with
  | Fl.nan => Fl.nan
  | Fl.val q => if q = 0 then Fl.val 0 else Fl.val q

/-- `0.0 if math.isnan(v) else v`. -/
def denan (x : Fl) : ℚ :=
  match x with
  | Fl.nan => 0
  | Fl.val q => q

/-- `max(0.0, min(1.0, v))`. -/
def clamp01 (q : ℚ) : ℚ := max 0 (min 1 q)

/-- Python `round` at integer precision rounds half to even.
(`Rat.floor` is the executable floor of a rational.) -/
def roundHalfEven (x : ℚ) : Int :=
  if x - (x.floor : ℚ) < 1/2 then x.floor
  else if 1/2 < x - (x.floor : ℚ) then x.floor + 1
  else if x.floor % 2 = 0 then x.floor else x.floor + 1

/-- `round(v, 4)`: round half-to-even at four decimal places. -/
def round4 (q : ℚ) : ℚ := (roundHalfEven (q * 10000) : ℚ) / 10000

/-- The whole score expression of source line 104. -/
def normalize_score (s : Option Fl) : ℚ :=
  round4 (clamp01 (denan (orZero (scoreVal s))))

/-- Formatting one candidate into a result dict (source lines 102–111). -/
def formatResult (r : Candidate) : SearchResult :=
  { id := r.id
    score := normalize_score (some (Fl.val r.score))
    content := r.content
    metadata := { title := r.title, source := r.source } }

/-! ## `search` (source lines 61–122)

`get_embedding` is the external embedding generator, passed as a
parameter.  Wall-clock time is not part of the pure model, so the elapsed
milliseconds measured in the non-empty branch enter as the `elapsedMs`
oracle.  The result carries two instrumentation counters: the number of
`get_embedding` calls and the number of `rerank_batch` calls performed
(the source imports `rerank_batch` but never calls it), plus the final
engine state, so that absence of mutation of `self` is part of the
model.  `None` models the `IndexError` that `vector_search` raises when
`self.embeddings` is longer than `self.documents`. -/

/-- Python `query.strip()`: drop whitespace characters from both ends of
the string. -/
def pyStrip (s : String) : String :=
  ⟨((s.data.dropWhile Char.isWhitespace).reverse.dropWhile
      Char.isWhitespace).reverse⟩

/-- `if not query or query.strip() == ''`. -/
def emptyQuery (query : String) : Bool :=
  query == "" || pyStrip query == ""

/-- `search(self, query, k, rerank, rerank_k)`.  Returns
`(response, embedding-generator call count, rerank_batch call count)`
paired with the engine state after the call. -/
def search (st : Engine) (sim : Emb → Emb → ℚ)
    (get_embedding : String → Emb) (elapsedMs : Nat) (query : String)
    (k : Nat) (rerank : Bool) (rerank_k : Nat) :
    Option (SearchResponse × Nat × Nat) × Engine :=
  if emptyQuery query then
    (some ({ results := []
             reranked := false
             metrics := { latency := 0, totalDocs := st.documents.length } },
           0, 0), st)
  else
    match vector_search st sim (get_embedding query) k with
    | none => (none, st)
    | some candidates =>
      let final_candidates := candidates
      let results :=
        if rerank then final_candidates.take rerank_k
        else final_candidates.take k
      (some ({ results := results.map formatResult
               reranked := rerank
               metrics := { latency := elapsedMs
                            totalDocs := st.documents.length } },
             1, 0), st)

/-! ## Wire shape of the response

The response is a literal Python dict; `Json` captures its shape so that
statements about the exact field names can be made. -/

inductive Json where
  | str : String → Json
  | num : ℚ → Json
  | bool : Bool → Json
  | arr : List Json → Json
  | obj : List (String × Json) → Json
deriving Repr

/-- The dict literal of source lines 102–111 for one result. -/
def SearchResult.toJson (r : SearchResult) : Json :=
  Json.obj
    [("id", Json.num r.id),
     ("score", Json.num r.score),
     ("content", Json.str r.content),
     ("metadata", Json.obj
        [("title", Json.str r.metadata.title),
         ("source", Json.str r.metadata.source)])]

/-- The dict literal of source lines 101–119 for the response. -/
def SearchResponse.toJson (resp : SearchResponse) : Json :=
  Json.obj
    [("results", Json.arr (resp.results.map SearchResult.toJson)),
     ("reranked", Json.bool resp.reranked),
     ("metrics", Json.obj
        [("latency", Json.num resp.metrics.latency),
         ("totalDocs", Json.num resp.metrics.totalDocs)])]

/-- Top-level key list of a JSON object. -/
def jsonKeys : Json → List String
  | Json.obj l => l.map Prod.fst
  | _ => []

/-- Look up a key in a JSON object. -/
def getKey (j : Json) (s : String) : Option Json :=
  match j with
  | Json.obj l => (l.find? (fun p => p.1 == s)).map Prod.snd
  | _ => none

/-! ## A concrete engine for witnesses

One document with id 1, one embedding; the similarity collaborator
returns `1/2` and the embedding generator returns `[1]`. -/

def egEngine : Engine := ⟨[⟨1, "a", none, none⟩], [[1]]⟩

def egSim : Emb → Emb → ℚ := fun _ _ => 1/2

def egGe : String → Emb := fun _ => [1]

def egCand : Candidate := ⟨1, 1/2, "a", "", ""⟩

def egResult : SearchResult := ⟨1, 1/2, "a", ⟨"", ""⟩⟩

/-! ## Helper lemmas -/

theorem mkCandidatesAux_isSome (documents : List Document) (embeddings : List Emb)
    (sim : Emb → Emb → ℚ) (q : Emb) :
    ∀ i : Nat, (mkCandidatesAux documents embeddings sim q i).isSome ↔
      (embeddings = [] ∨ i + embeddings.length ≤ documents.length) := by
  induction embeddings with
  | nil => intro i; simp [mkCandidatesAux]
  | cons e es ih =>
    intro i
    simp only [mkCandidatesAux]
    cases hd : documents.get? i with
    | none =>
      have hlen : documents.length ≤ i := List.get?_eq_none.mp hd
      simp only [Option.isSome_none, Bool.false_eq_true, false_iff, not_or,
        List.length_cons]
      exact ⟨by simp, by omega⟩
    | some d =>
      have hlen : i < documents.length := by
        by_contra hlt
        rw [List.get?_eq_none.mpr (by omega)] at hd
        cases hd
      simp only [Option.isSome_map']
      rw [ih (i + 1)]
      simp only [List.length_cons]
      constructor
      · rintro (rfl | h)
        · right; simpa using hlen
        · right; omega
      · rintro (h | h)
        · cases h
        · by_cases hes : es = []
          · left; exact hes
          · right; omega

theorem mkCandidates_isSome (documents : List Document) (embeddings : List Emb)
    (sim : Emb → Emb → ℚ) (q : Emb) :
    (mkCandidates documents embeddings sim q).isSome ↔
      embeddings.length ≤ documents.length := by
  rw [mkCandidates, mkCandidatesAux_isSome]
  constructor
  · rintro (rfl | h)
    · simp
    · omega
  · intro h; right; omega

theorem mkCandidatesAux_length (documents : List Document) (embeddings : List Emb)
    (sim : Emb → Emb → ℚ) (q : Emb) :
    ∀ (i : Nat) (l : List Candidate),
    mkCandidatesAux documents embeddings sim q i = some l →
    l.length = embeddings.length := by
  induction embeddings with
  | nil =>
    intro i l h
    simp only [mkCandidatesAux, Option.some_inj] at h
    simp [← h]
  | cons e es ih =>
    intro i l h
    simp only [mkCandidatesAux] at h
    cases hd : documents.get? i with
    | none => rw [hd] at h; cases h
    | some d =>
      rw [hd] at h
      rcases Option.map_eq_some'.mp h with ⟨rest, hrest, rfl⟩
      simp [ih _ _ hrest]

theorem mkCandidatesAux_map_id_content (documents : List Document)
    (embeddings : List Emb) (sim : Emb → Emb → ℚ) (q : Emb) :
    ∀ (i : Nat) (l : List Candidate),
    mkCandidatesAux documents embeddings sim q i = some l →
    documents.length = i + embeddings.length →
    l.map (fun c => (c.id, c.content)) =
      (documents.drop i).map (fun d => (d.id, d.content)) := by
  induction embeddings with
  | nil =>
    intro i l h hlen
    simp only [mkCandidatesAux, Option.some_inj] at h
    have hdrop : documents.drop i = [] :=
      List.drop_eq_nil_of_le (by simp at hlen; omega)
    simp [← h, hdrop]
  | cons e es ih =>
    intro i l h hlen
    simp only [mkCandidatesAux] at h
    cases hd : documents.get? i with
    | none => rw [hd] at h; cases h
    | some d =>
      rw [hd] at h
      rcases Option.map_eq_some'.mp h with ⟨rest, hrest, rfl⟩
      have hi : i < documents.length := by
        simp only [List.length_cons] at hlen; omega
      have hget : documents.get ⟨i, hi⟩ = d := by
        rw [List.get?_eq_some] at hd
        rcases hd with ⟨h', hget⟩
        exact hget
      have hgetElem : documents[i] = d := by
        simpa [List.get_eq_getElem] using hget
      have hdrop : documents.drop i = d :: documents.drop (i + 1) := by
        rw [List.drop_eq_getElem_cons hi, hgetElem]
      rw [hdrop]
      simp only [List.map_cons, mkCandidate]
      exact congrArg₂ _ rfl
        (ih (i + 1) rest hrest (by simp only [List.length_cons] at hlen ⊢; omega))

/-- The engine state after `search` is the state before: no statement of
the method assigns to `self.documents` or `self.embeddings`. -/
theorem search_engine_eq (st : Engine) (sim : Emb → Emb → ℚ)
    (get_embedding : String → Emb) (elapsedMs : Nat) (query : String)
    (k : Nat) (rerank : Bool) (rerank_k : Nat) :
    (search st sim get_embedding elapsedMs query k rerank rerank_k).2 = st := by
  unfold search
  split
  · rfl
  · split <;> rfl

theorem emptyQuery_eq_false {q : String} (hq : pyStrip q ≠ "") :
    emptyQuery q = false := by
  have hq0 : q ≠ "" := by
    intro h
    exact hq (by rw [h]; rfl)
  simp [emptyQuery, hq, hq0]

/-- The non-empty branch of `search`, written as a map over the
`vector_search` result. -/
theorem search_nonempty_eq (st : Engine) (sim : Emb → Emb → ℚ)
    (ge : String → Emb) (t : Nat) (q : String) (k : Nat) (rr : Bool) (rk : Nat)
    (hq : emptyQuery q = false) :
    (search st sim ge t q k rr rk).1 =
      (vector_search st sim (ge q) k).map (fun candidates =>
        ({ results := (if rr then candidates.take rk
                       else candidates.take k).map formatResult
           reranked := rr
           metrics := { latency := t, totalDocs := st.documents.length } },
         1, 0)) := by
  unfold search
  simp only [hq, Bool.false_eq_true, if_false]
  cases vector_search st sim (ge q) k <;> rfl

/-! ## Arithmetic of the normalisation chain -/

theorem rat_floor_eq_intFloor (x : ℚ) : x.floor = ⌊x⌋ :=
  (Rat.floor_def' x).trans Rat.floor_def.symm

theorem roundHalfEven_intCast (z : Int) : roundHalfEven ((z : ℚ)) = z := by
  unfold roundHalfEven
  simp only [rat_floor_eq_intFloor, Int.floor_intCast, sub_self]
  rw [if_pos (by norm_num : (0 : ℚ) < 1/2)]

theorem round4_zero : round4 0 = 0 := by
  unfold round4
  rw [show (0 : ℚ) * 10000 = ((0 : Int) : ℚ) by norm_num, roundHalfEven_intCast]
  norm_num

theorem round4_half : round4 (1/2) = 1/2 := by
  unfold round4
  rw [show (1 : ℚ)/2 * 10000 = ((5000 : Int) : ℚ) by norm_num,
    roundHalfEven_intCast]
  norm_num

theorem clamp01_zero : clamp01 0 = 0 := by
  unfold clamp01
  rw [min_eq_right (by norm_num : (0 : ℚ) ≤ 1), max_eq_right le_rfl]

theorem clamp01_half : clamp01 (1/2) = 1/2 := by
  unfold clamp01
  rw [min_eq_right (by norm_num : (1 : ℚ)/2 ≤ 1),
    max_eq_right (by norm_num : (0 : ℚ) ≤ 1/2)]

theorem floor_le_roundHalfEven (x : ℚ) : ⌊x⌋ ≤ roundHalfEven x := by
  unfold roundHalfEven
  simp only [rat_floor_eq_intFloor]
  split
  · exact le_rfl
  split
  · omega
  split
  · exact le_rfl
  · omega

theorem roundHalfEven_le_ceil (x : ℚ) : roundHalfEven x ≤ ⌈x⌉ := by
  unfold roundHalfEven
  simp only [rat_floor_eq_intFloor]
  by_cases h1 : x - (⌊x⌋ : ℚ) < 1/2
  · rw [if_pos h1]
    exact Int.floor_le_ceil x
  · rw [if_neg h1]
    have hfl : (⌊x⌋ : ℚ) < x := by
      have h1' := not_lt.mp h1
      linarith
    have hlt : ⌊x⌋ < ⌈x⌉ := Int.lt_ceil.mpr hfl
    by_cases h2 : 1/2 < x - (⌊x⌋ : ℚ)
    · rw [if_pos h2]
      omega
    · rw [if_neg h2]
      by_cases h3 : ⌊x⌋ % 2 = 0
      · rw [if_pos h3]
        omega
      · rw [if_neg h3]
        omega

theorem round4_bounds {q : ℚ} (h0 : 0 ≤ q) (h1 : q ≤ 1) :
    0 ≤ round4 q ∧ round4 q ≤ 1 := by
  unfold round4
  have hf : (0 : Int) ≤ ⌊q * 10000⌋ :=
    Int.le_floor.mpr (by push_cast; positivity)
  have hc : ⌈q * 10000⌉ ≤ (10000 : Int) := by
    rw [Int.ceil_le]
    push_cast
    nlinarith
  have hlo := floor_le_roundHalfEven (q * 10000)
  have hhi := roundHalfEven_le_ceil (q * 10000)
  constructor
  · apply div_nonneg _ (by norm_num : (0 : ℚ) ≤ 10000)
    exact_mod_cast le_trans hf hlo
  · rw [div_le_one (by norm_num : (0 : ℚ) < 10000)]
    exact_mod_cast le_trans hhi hc

theorem round4_den (q : ℚ) : (round4 q * 10000).den = 1 := by
  unfold round4
  rw [div_mul_cancel₀ _ (by norm_num : (10000 : ℚ) ≠ 0)]
  exact Rat.den_intCast _

theorem clamp01_bounds (q : ℚ) : 0 ≤ clamp01 q ∧ clamp01 q ≤ 1 := by
  unfold clamp01
  constructor
  · exact le_max_left 0 _
  · exact max_le (by norm_num) (min_le_left 1 q)

theorem normalize_score_val (q : ℚ) :
    normalize_score (some (Fl.val q)) = round4 (clamp01 q) := by
  by_cases h : q = 0
  · subst h
    simp [normalize_score, scoreVal, orZero, denan]
  · simp [normalize_score, scoreVal, orZero, denan, h]

theorem normalize_score_half : normalize_score (some (Fl.val (1/2))) = 1/2 := by
  rw [normalize_score_val, clamp01_half, round4_half]

theorem normalize_score_nan : normalize_score (some Fl.nan) = 0 := by
  unfold normalize_score
  have h : orZero (scoreVal (some Fl.nan)) = Fl.nan := by
    simp [scoreVal, orZero]
  rw [h]
  show round4 (clamp01 0) = 0
  rw [clamp01_zero, round4_zero]

theorem normalize_score_missing : normalize_score none = 0 := by
  unfold normalize_score
  have h : orZero (scoreVal none) = Fl.val 0 := by
    simp [scoreVal, orZero]
  rw [h]
  show round4 (clamp01 0) = 0
  rw [clamp01_zero, round4_zero]

theorem normalize_score_bounds (s : Option Fl) :
    0 ≤ normalize_score s ∧ normalize_score s ≤ 1 ∧
    (normalize_score s * 10000).den = 1 := by
  unfold normalize_score
  rcases clamp01_bounds (denan (orZero (scoreVal s))) with ⟨hb0, hb1⟩
  rcases round4_bounds hb0 hb1 with ⟨h0, h1⟩
  exact ⟨h0, h1, round4_den _⟩

theorem metricsKeys_toJson (resp : SearchResponse) :
    (getKey (SearchResponse.toJson resp) "metrics").map jsonKeys =
      some ["latency", "totalDocs"] := by
  have h1 : (("results" : String) == "metrics") = false := by decide
  have h2 : (("reranked" : String) == "metrics") = false := by decide
  have h3 : (("metrics" : String) == "metrics") = true := by decide
  simp [getKey, SearchResponse.toJson, List.find?, h1, h2, h3, jsonKeys]

theorem metadataKeys_toJson (r : SearchResult) :
    (getKey (SearchResult.toJson r) "metadata").map jsonKeys =
      some ["title", "source"] := by
  have h1 : (("id" : String) == "metadata") = false := by decide
  have h2 : (("score" : String) == "metadata") = false := by decide
  have h3 : (("content" : String) == "metadata") = false := by decide
  have h4 : (("metadata" : String) == "metadata") = true := by decide
  simp [getKey, SearchResult.toJson, List.find?, h1, h2, h3, h4, jsonKeys]

/-! ## Evaluation of the concrete engine -/

theorem egVector_eval :
    vector_search egEngine egSim (egGe "hi") 5 = some [egCand] := by
  simp [vector_search, mkCandidates, mkCandidatesAux, mkCandidate, egEngine,
    egSim, egGe, egCand, List.get?, List.insertionSort, List.orderedInsert]

theorem egFormat_eval : formatResult egCand = egResult := by
  unfold formatResult egCand egResult
  rw [normalize_score_half]

theorem egSearch_true_eval :
    (search egEngine egSim egGe 7 "hi" 5 true 3).1 =
      some ({ results := [egResult]
              reranked := true
              metrics := { latency := 7, totalDocs := 1 } }, 1, 0) := by
  rw [search_nonempty_eq egEngine egSim egGe 7 "hi" 5 true 3 (by decide),
    egVector_eval]
  simp [egFormat_eval, egEngine]

theorem egSearch_false_eval :
    (search egEngine egSim egGe 9 "hi" 5 false 3).1 =
      some ({ results := [egResult]
              reranked := false
              metrics := { latency := 9, totalDocs := 1 } }, 1, 0) := by
  rw [search_nonempty_eq egEngine egSim egGe 9 "hi" 5 false 3 (by decide),
    egVector_eval]
  simp [egFormat_eval, egEngine]

/-! ## Claims -/

/-- C1: the candidate list returned by `vector_search` is sorted in
descending order of score with ties broken by ascending document id, and
two calls with the same corpus, embeddings and query vector return the
identical list (the ranker is a pure function of its inputs). -/
theorem vector_search_sorted_tiebreak (st : Engine) (sim : Emb → Emb → ℚ)
    (q : Emb) (k : Nat) (cands : List Candidate)
    (h : vector_search st sim q k = some cands) :
    cands.Pairwise
      (fun a b => b.score < a.score ∨ (a.score = b.score ∧ a.id ≤ b.id)) ∧
    vector_search st sim q k = vector_search st sim q k := by
  refine ⟨?_, rfl⟩
  unfold vector_search at h
  rcases Option.map_eq_some'.mp h with ⟨l, hl, rfl⟩
  have hs : (l.insertionSort candLE).Pairwise candLE :=
    List.sorted_insertionSort candLE l
  exact List.Pairwise.sublist ((l.insertionSort candLE).take_sublist k) hs

/-- Witness for C1: a two-document corpus where both candidates tie at
score 1 and are ordered by ascending id. -/
theorem vector_search_sorted_tiebreak_witness :
    (([⟨1, 1, "a", "", ""⟩, ⟨2, 1, "b", "", ""⟩] : List Candidate).Pairwise
      (fun a b => b.score < a.score ∨ (a.score = b.score ∧ a.id ≤ b.id)) ∧
    vector_search ⟨[⟨2, "b", none, none⟩, ⟨1, "a", none, none⟩], [[1], [1]]⟩
        (fun _ _ => 1) [1] 5 =
      vector_search ⟨[⟨2, "b", none, none⟩, ⟨1, "a", none, none⟩], [[1], [1]]⟩
        (fun _ _ => 1) [1] 5) :=
  vector_search_sorted_tiebreak
    ⟨[⟨2, "b", none, none⟩, ⟨1, "a", none, none⟩], [[1], [1]]⟩
    (fun _ _ => 1) [1] 5
    [⟨1, 1, "a", "", ""⟩, ⟨2, 1, "b", "", ""⟩] (by decide)

/-- C4: on an empty or whitespace-only query, `search` returns immediately
with empty results, `reranked = false`, latency metric `0` and `totalDocs`
equal to the number of documents, and performs no call to the embedding
generator (the call counter is `0`). -/
theorem search_empty_query_short_circuit (st : Engine) (sim : Emb → Emb → ℚ)
    (ge : String → Emb) (t : Nat) (q : String) (k : Nat) (rr : Bool) (rk : Nat)
    (hq : pyStrip q = "") :
    (search st sim ge t q k rr rk).1 =
      some ({ results := []
              reranked := false
              metrics := { latency := 0, totalDocs := st.documents.length } },
            0, 0) := by
  unfold search
  have h : emptyQuery q = true := by simp [emptyQuery, hq]
  simp [h]

/-- Witness for C4 at a whitespace-only query. -/
theorem search_empty_query_short_circuit_witness :
    (search ⟨[⟨2, "b", none, none⟩, ⟨1, "a", none, none⟩], [[1], [1]]⟩
        (fun _ _ => 1) (fun _ => [1]) 7 "  " 5 true 3).1 =
      some ({ results := []
              reranked := false
              metrics := { latency := 0, totalDocs := 2 } },
            0, 0) :=
  search_empty_query_short_circuit
    ⟨[⟨2, "b", none, none⟩, ⟨1, "a", none, none⟩], [[1], [1]]⟩
    (fun _ _ => 1) (fun _ => [1]) 7 "  " 5 true 3 (by decide)

/-- C3: the number of results returned by `search` is at most
`min(k, rerankK if rerank else k, totalDocs)`. -/
theorem search_topk_bound (st : Engine) (sim : Emb → Emb → ℚ)
    (ge : String → Emb) (t : Nat) (q : String) (k : Nat) (rr : Bool) (rk : Nat)
    (resp : SearchResponse) (n m : Nat)
    (hq : pyStrip q ≠ "")
    (h : (search st sim ge t q k rr rk).1 = some (resp, n, m)) :
    resp.results.length ≤
      min k (min (if rr then rk else k) st.documents.length) := by
  rw [search_nonempty_eq st sim ge t q k rr rk (emptyQuery_eq_false hq)] at h
  rcases Option.map_eq_some'.mp h with ⟨cands, hc, heq⟩
  unfold vector_search at hc
  rcases Option.map_eq_some'.mp hc with ⟨l, hl, rfl⟩
  have hle : st.embeddings.length ≤ st.documents.length :=
    (mkCandidates_isSome st.documents st.embeddings sim (ge q)).mp
      (by rw [hl]; rfl)
  rw [mkCandidates] at hl
  have hlen : l.length = st.embeddings.length :=
    mkCandidatesAux_length st.documents st.embeddings sim (ge q) 0 l hl
  obtain rfl := (congrArg Prod.fst heq).symm
  cases rr with
  | false =>
    show ((((l.insertionSort candLE).take k).take k).map formatResult).length ≤
      min k (min k st.documents.length)
    have h1 : ((((l.insertionSort candLE).take k).take k).map
        formatResult).length = min k (min k l.length) := by
      simp [List.length_map, List.length_take, List.length_insertionSort]
    omega
  | true =>
    show ((((l.insertionSort candLE).take k).take rk).map formatResult).length ≤
      min k (min rk st.documents.length)
    have h1 : ((((l.insertionSort candLE).take k).take rk).map
        formatResult).length = min rk (min k l.length) := by
      simp [List.length_map, List.length_take, List.length_insertionSort]
    omega

/-- Witness for C3 at the concrete one-document engine. -/
theorem search_topk_bound_witness :
    ({ results := [egResult]
       reranked := true
       metrics := { latency := 7, totalDocs := 1 } } :
        SearchResponse).results.length ≤ min 5 (min 3 1) :=
  search_topk_bound egEngine egSim egGe 7 "hi" 5 true 3 _ 1 0 (by decide)
    egSearch_true_eval

/-- C5: the `reranked` field of the response equals the requested
`rerank` argument, and with `rerank = true` the results are the first
`rerank_k` already-score-sorted candidates, formatted — the bypass
strategy. -/
theorem search_reranked_flag (st : Engine) (sim : Emb → Emb → ℚ)
    (ge : String → Emb) (t : Nat) (q : String) (k : Nat) (rr : Bool) (rk : Nat)
    (resp : SearchResponse) (n m : Nat) (cands : List Candidate)
    (hq : pyStrip q ≠ "")
    (h : (search st sim ge t q k rr rk).1 = some (resp, n, m))
    (hc : vector_search st sim (ge q) k = some cands) :
    resp.reranked = rr ∧
      (rr = true → resp.results = (cands.take rk).map formatResult) := by
  rw [search_nonempty_eq st sim ge t q k rr rk (emptyQuery_eq_false hq)] at h
  rcases Option.map_eq_some'.mp h with ⟨cands', hc', heq⟩
  have hcc : cands = cands' := by
    rw [hc] at hc'
    exact Option.some_inj.mp hc'
  subst hcc
  constructor
  · exact (congrArg (fun p => p.1.reranked) heq).symm
  · intro hrr
    have hres := congrArg (fun p => p.1.results) heq
    subst hrr
    simpa using hres.symm

/-- Witness for C5 at the concrete one-document engine. -/
theorem search_reranked_flag_witness :
    ({ results := [egResult]
       reranked := true
       metrics := { latency := 7, totalDocs := 1 } } :
        SearchResponse).reranked = true ∧
    (true = true →
      ({ results := [egResult]
         reranked := true
         metrics := { latency := 7, totalDocs := 1 } } :
          SearchResponse).results = ([egCand].take 3).map formatResult) :=
  search_reranked_flag egEngine egSim egGe 7 "hi" 5 true 3 _ 1 0 [egCand]
    (by decide) egSearch_true_eval egVector_eval

/-- C10: with `rerank = true` and `rerankK ≤ k`, the results are exactly
the first `rerankK` results of the corresponding `rerank = false` call,
and the external re-ranking collaborator is never invoked (its call
counter is `0` in both calls). -/
theorem search_rerank_is_truncation (st : Engine) (sim : Emb → Emb → ℚ)
    (ge : String → Emb) (t₁ t₂ : Nat) (q : String) (k rk : Nat)
    (resp₁ resp₂ : SearchResponse) (n₁ m₁ n₂ m₂ : Nat)
    (hq : pyStrip q ≠ "") (hk : rk ≤ k)
    (h₁ : (search st sim ge t₁ q k true rk).1 = some (resp₁, n₁, m₁))
    (h₂ : (search st sim ge t₂ q k false rk).1 = some (resp₂, n₂, m₂)) :
    resp₁.results = resp₂.results.take rk ∧ m₁ = 0 ∧ m₂ = 0 := by
  rw [search_nonempty_eq st sim ge t₁ q k true rk
    (emptyQuery_eq_false hq)] at h₁
  rw [search_nonempty_eq st sim ge t₂ q k false rk
    (emptyQuery_eq_false hq)] at h₂
  rcases Option.map_eq_some'.mp h₁ with ⟨c₁, hc₁, heq₁⟩
  rcases Option.map_eq_some'.mp h₂ with ⟨c₂, hc₂, heq₂⟩
  have hcc : c₁ = c₂ := by
    rw [hc₁] at hc₂
    exact Option.some_inj.mp hc₂
  subst hcc
  refine ⟨?_, (congrArg (fun p => p.2.2) heq₁).symm,
    (congrArg (fun p => p.2.2) heq₂).symm⟩
  have hres₁ := congrArg (fun p => p.1.results) heq₁
  have hres₂ := congrArg (fun p => p.1.results) heq₂
  simp only [if_true, Bool.false_eq_true, if_false] at hres₁ hres₂
  rw [← hres₁, ← hres₂, ← List.map_take, List.take_take, min_eq_left hk]

/-- Witness for C10 at the concrete one-document engine. -/
theorem search_rerank_is_truncation_witness :
    ({ results := [egResult]
       reranked := true
       metrics := { latency := 7, totalDocs := 1 } } :
        SearchResponse).results =
      ({ results := [egResult]
         reranked := false
         metrics := { latency := 9, totalDocs := 1 } } :
          SearchResponse).results.take 3 ∧ (0 : Nat) = 0 ∧ (0 : Nat) = 0 :=
  search_rerank_is_truncation egEngine egSim egGe 7 9 "hi" 5 3 _ _ 1 0 1 0
    (by decide) (by decide) egSearch_true_eval egSearch_false_eval

/-- C8: `search` never mutates the shared loaded state: the document
collection and embeddings sequence after any call are exactly those
before it. -/
theorem search_frame (st : Engine) (sim : Emb → Emb → ℚ)
    (ge : String → Emb) (t : Nat) (q : String) (k : Nat) (rr : Bool)
    (rk : Nat) :
    (search st sim ge t q k rr rk).2.documents = st.documents ∧
    (search st sim ge t q k rr rk).2.embeddings = st.embeddings :=
  ⟨congrArg Engine.documents (search_engine_eq st sim ge t q k rr rk),
   congrArg Engine.embeddings (search_engine_eq st sim ge t q k rr rk)⟩

/-- C2: every result score of a non-empty-query `search` response is
clamped into `[0, 1]` and is an exact multiple of `1/10000` (rounded to 4
decimal places); a NaN or missing candidate score normalises to `0.0`
rather than failing the request (`normalize_score` is total on those
inputs and returns `0`). -/
theorem search_score_normalized (st : Engine) (sim : Emb → Emb → ℚ)
    (ge : String → Emb) (t : Nat) (q : String) (k : Nat) (rr : Bool) (rk : Nat)
    (resp : SearchResponse) (n m : Nat) (r : SearchResult)
    (hq : pyStrip q ≠ "")
    (h : (search st sim ge t q k rr rk).1 = some (resp, n, m))
    (hr : r ∈ resp.results) :
    (0 ≤ r.score ∧ r.score ≤ 1 ∧ (r.score * 10000).den = 1) ∧
    normalize_score (some Fl.nan) = 0 ∧ normalize_score none = 0 := by
  refine ⟨?_, normalize_score_nan, normalize_score_missing⟩
  rw [search_nonempty_eq st sim ge t q k rr rk (emptyQuery_eq_false hq)] at h
  rcases Option.map_eq_some'.mp h with ⟨cands, hc, heq⟩
  obtain rfl := (congrArg Prod.fst heq).symm
  rcases List.mem_map.mp hr with ⟨c, -, rfl⟩
  exact normalize_score_bounds (some (Fl.val c.score))

/-- Witness for C2 at the concrete one-document engine. -/
theorem search_score_normalized_witness :
    (0 ≤ egResult.score ∧ egResult.score ≤ 1 ∧
      (egResult.score * 10000).den = 1) ∧
    normalize_score (some Fl.nan) = 0 ∧ normalize_score none = 0 :=
  search_score_normalized egEngine egSim egGe 7 "hi" 5 true 3 _ 1 0 egResult
    (by decide) egSearch_true_eval (List.mem_singleton.mpr rfl)

/-- C9: building the similarity list indexes `documents[i]` for every
index `i` of the embeddings sequence, so `vector_search` succeeds exactly
when the embeddings sequence is no longer than the document collection;
with equal lengths every document is scored exactly once (the candidate
ids and contents, in order, are those of the documents). -/
theorem vector_search_indexing (documents : List Document)
    (embeddings : List Emb) (sim : Emb → Emb → ℚ) (q : Emb) (k : Nat) :
    ((vector_search ⟨documents, embeddings⟩ sim q k).isSome ↔
      embeddings.length ≤ documents.length) ∧
    (embeddings.length = documents.length →
      ∀ l, mkCandidates documents embeddings sim q = some l →
        l.map (fun c => (c.id, c.content)) =
          documents.map (fun d => (d.id, d.content))) := by
  constructor
  · rw [vector_search, Option.isSome_map']
    exact mkCandidates_isSome documents embeddings sim q
  · intro hlen l hl
    have h := mkCandidatesAux_map_id_content documents embeddings sim q 0 l
      (by rw [← mkCandidates]; exact hl) (by omega)
    simpa using h

/-- Witness for C9 at the concrete one-document corpus. -/
theorem vector_search_indexing_witness :
    ((vector_search ⟨[⟨1, "a", none, none⟩], [[1]]⟩ egSim [1] 5).isSome ↔
      ([[(1 : ℚ)]] : List Emb).length ≤
        ([⟨1, "a", none, none⟩] : List Document).length) ∧
    (([[(1 : ℚ)]] : List Emb).length =
        ([⟨1, "a", none, none⟩] : List Document).length →
      ∀ l, mkCandidates [⟨1, "a", none, none⟩] [[1]] egSim [1] = some l →
        l.map (fun c => (c.id, c.content)) =
          ([⟨1, "a", none, none⟩] : List Document).map
            (fun d => (d.id, d.content))) :=
  vector_search_indexing [⟨1, "a", none, none⟩] [[1]] egSim [1] 5

/-- C6 (amended): every response of `search`, serialised as the literal
dict the source builds, has exactly the keys `results`, `reranked` and
`metrics`; the metrics object has exactly the keys `latency` and
`totalDocs` (the source names the field `latency`, not `latencyMs`); each
result has exactly `id`, `score`, `content`, `metadata`, and the metadata
object exactly `title` and `source`. -/
theorem search_response_fields (st : Engine) (sim : Emb → Emb → ℚ)
    (ge : String → Emb) (t : Nat) (q : String) (k : Nat) (rr : Bool) (rk : Nat)
    (resp : SearchResponse) (n m : Nat) (r : SearchResult)
    (h : (search st sim ge t q k rr rk).1 = some (resp, n, m))
    (hr : r ∈ resp.results) :
    jsonKeys (SearchResponse.toJson resp) = ["results", "reranked", "metrics"] ∧
    (getKey (SearchResponse.toJson resp) "metrics").map jsonKeys =
      some ["latency", "totalDocs"] ∧
    jsonKeys (SearchResult.toJson r) = ["id", "score", "content", "metadata"] ∧
    (getKey (SearchResult.toJson r) "metadata").map jsonKeys =
      some ["title", "source"] :=
  ⟨rfl, metricsKeys_toJson resp, rfl, metadataKeys_toJson r⟩

/-- Witness for C6's amended statement at the concrete engine. -/
theorem search_response_fields_witness :
    jsonKeys (SearchResponse.toJson
      { results := [egResult]
        reranked := true
        metrics := { latency := 7, totalDocs := 1 } }) =
      ["results", "reranked", "metrics"] ∧
    (getKey (SearchResponse.toJson
      { results := [egResult]
        reranked := true
        metrics := { latency := 7, totalDocs := 1 } }) "metrics").map jsonKeys =
      some ["latency", "totalDocs"] ∧
    jsonKeys (SearchResult.toJson egResult) =
      ["id", "score", "content", "metadata"] ∧
    (getKey (SearchResult.toJson egResult) "metadata").map jsonKeys =
      some ["title", "source"] :=
  search_response_fields egEngine egSim egGe 7 "hi" 5 true 3 _ 1 0 egResult
    egSearch_true_eval (List.mem_singleton.mpr rfl)

/-- Counterexample for C6 as stated: at a concrete call the metrics
object's keys are `latency` and `totalDocs`; there is no key named
`latencyMs`. -/
theorem search_response_fields_counterexample :
    ((search egEngine egSim egGe 7 "hi" 5 true 3).1.map
      (fun p => (getKey (SearchResponse.toJson p.1) "metrics").map jsonKeys)) =
      some (some ["latency", "totalDocs"]) ∧
    "latencyMs" ∉ (["latency", "totalDocs"] : List String) := by
  constructor
  · rw [egSearch_true_eval]
    simp only [Option.map_some']
    rw [metricsKeys_toJson]
  · decide

/-- Counterexample for C7 as stated: a cached embedding sequence whose
length differs from the document count is returned as-is by
`load_or_compute_embeddings`, breaking the alignment invariant. -/
theorem load_or_compute_embeddings_misaligned :
    (load_or_compute_embeddings [] (some [[1]]) (fun _ => [])).length ≠
      ([] : List Document).length := by
  decide

/-- C7 (amended): after `load_or_compute_embeddings` returns, the
embeddings sequence has one entry per document provided that either no
cache exists (and the bulk collaborator honours its one-vector-per-
document contract) or the cached sequence's length equals the document
count; the alignment persists in every state reachable by `search` calls,
which leave the engine unchanged. -/
theorem load_or_compute_embeddings_aligned (documents : List Document)
    (cached : Option (List Emb)) (compute : List Document → List Emb)
    (hcompute : (compute documents).length = documents.length)
    (hcache : ∀ e, cached = some e → e.length = documents.length) :
    (load_or_compute_embeddings documents cached compute).length =
      documents.length ∧
    ∀ sim ge t q k rr rk,
      (search ⟨documents, load_or_compute_embeddings documents cached compute⟩
          sim ge t q k rr rk).2 =
        ⟨documents, load_or_compute_embeddings documents cached compute⟩ := by
  constructor
  · unfold load_or_compute_embeddings
    cases cached with
    | some e => exact hcache e rfl
    | none => exact hcompute
  · intro sim ge t q k rr rk
    exact search_engine_eq _ sim ge t q k rr rk

/-- Witness for C7's amended statement: a one-document corpus with a
matching one-vector cache. -/
theorem load_or_compute_embeddings_aligned_witness :
    (load_or_compute_embeddings [⟨1, "a", none, none⟩] (some [[1]])
        (fun _ => [[1]])).length =
      ([⟨1, "a", none, none⟩] : List Document).length ∧
    (search ⟨[⟨1, "a", none, none⟩],
        load_or_compute_embeddings [⟨1, "a", none, none⟩] (some [[1]])
          (fun _ => [[1]])⟩ egSim egGe 7 "hi" 5 true 3).2 =
      ⟨[⟨1, "a", none, none⟩],
        load_or_compute_embeddings [⟨1, "a", none, none⟩] (some [[1]])
          (fun _ => [[1]])⟩ :=
  ⟨(load_or_compute_embeddings_aligned [⟨1, "a", none, none⟩] (some [[1]])
      (fun _ => [[1]]) rfl
      (fun e he => by rw [← Option.some_inj.mp he]; rfl)).1,
   (load_or_compute_embeddings_aligned [⟨1, "a", none, none⟩] (some [[1]])
      (fun _ => [[1]]) rfl
      (fun e he => by rw [← Option.some_inj.mp he]; rfl)).2
     egSim egGe 7 "hi" 5 true 3⟩

end SemanticSearch
